import Mathlib

set_option linter.unusedVariables false
set_option maxRecDepth 100000

/-!
Shallow embedding of the `verify` plugin framework of the
kubebuilder-release-tools repository (files `verify/plugin.go` and
`verify/type.go`), together with a model of the GitHub Checks API it talks
to, and theorems settling the frozen claims about the specification.

Modelling conventions:
  * Go pointers (`*string`, `*github.CheckRun`, ...) become `Option`;
    the nil-safe generated getters (`GetStatus`, `GetTitle`, ...) become
    total functions returning the Go zero value on `none`, while a raw
    dereference of a possibly-nil pointer is modelled explicitly (the
    handlers return a dedicated `nilDeref` result when the Go code would
    panic on a nil pointer).
  * Go errors become the structure `GoError`.  The field `help` records
    whether the error (chain) satisfies the `ErrorWithHelp` capability
    interface, i.e. whether `errors.As(err, &helpErr)` succeeds, and with
    which `Help()` text; the field `details` records the text of a
    `Details()` method when the concrete error type has one (which is NOT
    part of `ErrorWithHelp`).  Wrapping with a `%w` verb keeps the
    capability visible to `errors.As`; formatting with `%v` does not.
  * The remote GitHub client is modelled by the explicit state `GH`
    threaded through every call, with fault-injection flags so that the
    failure branches of the Go code are reachable in the model.
  * Logging (`p.debugf`) has no observable effect on the results and is
    omitted.
-/

namespace Verify

/-- Output block of a check run (`github.CheckRunOutput`): title, summary
and free-text body, all nullable. -/
structure CheckRunOutput where
  title : Option String
  summary : Option String
  text : Option String
deriving DecidableEq

/-- A check-run record (`github.CheckRun`), restricted to the fields the
source reads or writes.  All fields except the numeric id are pointers in
Go, hence `Option` here.  Timestamps are abstract `Nat` instants. -/
structure CheckRun where
  id : Nat
  name : Option String
  headSHA : Option String
  detailsURL : Option String
  externalID : Option String
  status : Option String
  conclusion : Option String
  startedAt : Option Nat
  completedAt : Option Nat
  output : Option CheckRunOutput
deriving DecidableEq

/-- A Go error value.  `msg` is `Error()`; `help` is `some h` exactly when
`errors.As(err, &(ErrorWithHelp))` succeeds with `Help() = h`; `details`
records a `Details()` method of the concrete type when it has one
(`Details` is not part of the `ErrorWithHelp` interface). -/
structure GoError where
  msg : String
  help : Option String
  details : Option String
deriving DecidableEq

/-- Wrapping with `fmt.Errorf("...: %w", err)`: the message is prefixed
and the `errors.As`-visible capabilities of the wrapped error survive. -/
def wrapErr (front : String) (e : GoError) : GoError :=
  { msg := front ++ e.msg, help := e.help, details := e.details }

/-- Formatting with `fmt.Errorf("failed: %v", err)`: only the message
survives, capabilities of the original error are lost. -/
def failedErr (msg : String) : GoError :=
  { msg := "failed: " ++ msg, help := none, details := none }

/-- The pull-request snapshot the plugin reads (`github.PullRequest`,
restricted to the fields used: title and head commit SHA). -/
structure PullRequest where
  title : Option String
  headSHA : Option String
deriving DecidableEq

/-- `pr.GetTitle()`: nil-safe getter. -/
def getTitle : Option PullRequest → String
  | none => ""
  | some pr => pr.title.getD ""

/-- `pr.GetHead().GetSHA()`: nil-safe getters chained. -/
def getHeadSHA : Option PullRequest → String
  | none => ""
  | some pr => pr.headSHA.getD ""

/-- The inbound event (`github.PullRequestEvent`, restricted to the fields
used: action, pull request, and the before/after SHAs of a synchronize). -/
structure PREvent where
  action : Option String
  pullRequest : Option PullRequest
  before : Option String
  after : Option String
deriving DecidableEq

/-- `event.GetAction()`. -/
def getAction (e : PREvent) : String := e.action.getD ""

/-- `event.GetBefore()`. -/
def getBefore (e : PREvent) : String := e.before.getD ""

/-- `event.GetAfter()`. -/
def getAfter (e : PREvent) : String := e.after.getD ""

/-- `checkRun.GetStatus()`: nil-safe on both the run pointer and the
status pointer. -/
def getStatus (c : Option CheckRun) : String :=
  (c.bind (·.status)).getD ""

/-- `checkRun.GetID()`: nil-safe. -/
def getID (c : Option CheckRun) : Nat :=
  (c.map (·.id)).getD 0

/-- Modelled from the spec: the status constants `Started` and `Finished`
of the verify package are declared outside the provided sources; per the
spec the remote status vocabulary is queued / in-progress / completed,
`Started` denotes the in-progress status a freshly created run is given,
and `Finished` denotes the completed status, with `Equal` comparing
against a status string. -/
def Started : String := "in-progress"

/-- Modelled from the spec: the completed status constant, see `Started`. -/
def Finished : String := "completed"

/-! ## Model of the remote GitHub Checks API (external collaborator) -/

/-- The remote state: all existing check runs of the one repository the
plugin works against, a fresh-id counter, the current instant, and
fault-injection flags making the remote-failure branches reachable. -/
structure GH where
  runs : List CheckRun
  nextId : Nat
  now : Nat
  failList : Bool
  failCreate : Bool
  failUpdate : Bool
deriving DecidableEq

/-- `github.CreateCheckRunOptions`, restricted to the fields the source
fills in. `name` and `headSHA` are required strings, the rest pointers. -/
structure CreateCheckRunOptions where
  name : String
  headSHA : String
  detailsURL : Option String
  externalID : Option String
  status : Option String
  conclusion : Option String
  startedAt : Option Nat
  completedAt : Option Nat
  output : Option CheckRunOutput
deriving DecidableEq

/-- The record the service stores for a create request: fresh id, fields
from the options; per the Checks API, supplying a conclusion forces the
status to completed (and stamps a completion time), an absent status
defaults to queued, and an absent start time defaults to now. -/
def createRunFromOpts (s : GH) (opts : CreateCheckRunOptions) : CheckRun :=
  { id := s.nextId
    name := some opts.name
    headSHA := some opts.headSHA
    detailsURL := opts.detailsURL
    externalID := opts.externalID
    status := if opts.conclusion.isSome then some "completed"
              else some (opts.status.getD "queued")
    conclusion := opts.conclusion
    startedAt := some (opts.startedAt.getD s.now)
    completedAt := if opts.conclusion.isSome then some (opts.completedAt.getD s.now)
                   else opts.completedAt
    output := opts.output }

/-- A remote-API failure (network, auth, rate limit, ...). -/
def remoteErr (op : String) : GoError :=
  { msg := "remote API failure on " ++ op, help := none, details := none }

/-- `client.Checks.CreateCheckRun`: on failure go-github returns a nil run
together with the error; on success the stored run. -/
def CreateCheckRun (s : GH) (opts : CreateCheckRunOptions) :
    Option CheckRun × Option GoError × GH :=
  if s.failCreate then (none, some (remoteErr "create"), s)
  else
    let run := createRunFromOpts s opts
    (some run, none,
      { s with runs := s.runs ++ [run], nextId := s.nextId + 1 })

/-- Whether a stored run matches the (head SHA, check name) key of a
filtered list request. -/
def matchKey (ref checkName : String) (r : CheckRun) : Bool :=
  r.headSHA == some ref && r.name == some checkName

/-- `client.Checks.ListCheckRunsForRef` with a check-name filter: the runs
whose head SHA is `ref` and whose name is the filtered name.  Does not
change the remote state. -/
def ListCheckRuns (s : GH) (ref : String) (checkName : String) :
    Option (List CheckRun) × Option GoError :=
  if s.failList then (none, some (remoteErr "list"))
  else (some (s.runs.filter (matchKey ref checkName)), none)

/-- `github.UpdateCheckRunOptions`, restricted to the fields the source
fills in.  `name` is a required string, the rest pointers. -/
structure UpdateCheckRunOptions where
  name : String
  status : Option String
  conclusion : Option String
  completedAt : Option Nat
  output : Option CheckRunOutput
deriving DecidableEq

/-- Patch semantics of the Checks API: provided fields replace the stored
ones, absent fields are kept; supplying a conclusion forces the status to
completed. -/
def applyUpdate (r : CheckRun) (opts : UpdateCheckRunOptions) : CheckRun :=
  { r with
    name := some opts.name
    status := match opts.conclusion, opts.status with
      | some _, _ => some "completed"
      | none, some st => some st
      | none, none => r.status
    conclusion := match opts.conclusion with
      | some c => some c
      | none => r.conclusion
    completedAt := match opts.completedAt with
      | some t => some t
      | none => r.completedAt
    output := match opts.output with
      | some o => some o
      | none => r.output }

/-- Whether a stored run carries the identifier `rid`. -/
def byId (rid : Nat) (r : CheckRun) : Bool := r.id == rid

/-- Replace (in place) every stored run with identifier `rid` by its
patched version. -/
def replaceRun (runs : List CheckRun) (rid : Nat) (opts : UpdateCheckRunOptions) :
    List CheckRun :=
  runs.map fun q => if byId rid q then applyUpdate q opts else q

/-- `client.Checks.UpdateCheckRun`: on failure (or unknown id) go-github
returns a nil run together with the error; on success the patched run. -/
def UpdateCheckRun (s : GH) (rid : Nat) (opts : UpdateCheckRunOptions) :
    Option CheckRun × Option GoError × GH :=
  if s.failUpdate then (none, some (remoteErr "update"), s)
  else
    match s.runs.find? (byId rid) with
    | none => (none, some (remoteErr "update"), s)
    | some r =>
      (some (applyUpdate r opts), none,
        { s with runs := replaceRun s.runs rid opts })

/-! ## The plugin (`verify/plugin.go`) -/

/-- `PRPlugin`: a verification function, a check name and an output
title.  The logger field has no observable behaviour and is omitted. -/
structure PRPlugin where
  ProcessPR : Option PullRequest → String × Option GoError
  Name : String
  Title : String

/-- The environment a handler receives (`ActionsEnv`, restricted to the
fields the handlers read; the client handle is the threaded `GH` state). -/
structure ActionsEnv where
  owner : String
  repo : String
  event : PREvent

/-- The detail text submitted for a failed verification: the help text of
the error when `errors.As` finds the `ErrorWithHelp` capability, otherwise
the text the verification function returned (left untouched). -/
def errText (text : String) (e : GoError) : String :=
  match e.help with
  | some h => h
  | none => text

/-- `PRPlugin.processPR`: run the plugged verification function and parse
its result into (conclusion, summary, text, error). -/
def processPR (p : PRPlugin) (pr : Option PullRequest) :
    String × String × String × Option GoError :=
  match p.ProcessPR pr with
  | (text, some e) => ("failure", e.msg, errText text e, some e)
  | (text, none) => ("success", "Success", text, none)

/-- The create options `PRPlugin.createCheckRun` fills in. -/
def createOpts (p : PRPlugin) (headSHA : String) : CreateCheckRunOptions :=
  { name := p.Name, headSHA := headSHA, detailsURL := none,
    externalID := none, status := some Started, conclusion := none,
    startedAt := none, completedAt := none, output := none }

/-- `PRPlugin.createCheckRun`: create a fresh run for `headSHA` with the
started status; on failure a nil run and a wrapped error. -/
def createCheckRun (p : PRPlugin) (client : GH) (owner repo headSHA : String) :
    Option CheckRun × Option GoError × GH :=
  match CreateCheckRun client (createOpts p headSHA) with
  | (_, some e, s2) => (none, some (wrapErr "unable to create check run: " e), s2)
  | (run, none, s2) => (run, none, s2)

/-- The ambiguity error of `PRPlugin.getCheckRun` when several runs match. -/
def ambiguousCheckRunError (name owner repo headSHA : String) : GoError :=
  { msg := "multiple instances of `" ++ name ++ "` check run found on "
      ++ owner ++ "/" ++ repo ++ " @ " ++ headSHA,
    help := none, details := none }

/-- The (dead in practice) error of `PRPlugin.getCheckRun` for a negative
match count. -/
def negativeCountError (name owner repo headSHA : String) : GoError :=
  { msg := "negative number of instances of `" ++ name ++ "` check run found on "
      ++ owner ++ "/" ++ repo ++ " @ " ++ headSHA,
    help := none, details := none }

/-- `PRPlugin.getCheckRun`: list the runs matching (name, headSHA); zero
matches delegates to create, one match is returned, more than one is the
ambiguity error.  The total count is an int in Go, hence the (dead)
negative branch. -/
def getCheckRun (p : PRPlugin) (client : GH) (owner repo headSHA : String) :
    Option CheckRun × Option GoError × GH :=
  match ListCheckRuns client headSHA p.Name with
  | (_, some e) => (none, some (wrapErr "unable to list check runs: " e), client)
  | (checkRunList, none) =>
    let found := checkRunList.getD []
    let n : Int := found.length
    if n = 0 then createCheckRun p client owner repo headSHA
    else if n = 1 then (found.head?, none, client)
    else if n > 1 then
      (none, some (ambiguousCheckRunError p.Name owner repo headSHA), client)
    else
      (none, some (negativeCountError p.Name owner repo headSHA), client)

/-- The update options `PRPlugin.resetCheckRun` fills in. -/
def resetOpts (p : PRPlugin) : UpdateCheckRunOptions :=
  { name := p.Name, status := some "in-progress", conclusion := none,
    completedAt := none, output := none }

/-- `PRPlugin.resetCheckRun`: get-or-create, then force the status to
in-progress unless it already is.  On update failure the Go code returns
the (nil) response of the update call — the fetched run variable is
shadowed by the multi-assignment — together with the wrapped error. -/
def resetCheckRun (p : PRPlugin) (client : GH) (owner repo headSHA : String) :
    Option CheckRun × Option GoError × GH :=
  match getCheckRun p client owner repo headSHA with
  | (checkRun, err, s1) =>
    if err.isSome || Started == getStatus checkRun then
      (checkRun, err, s1)
    else
      match UpdateCheckRun s1 (getID checkRun) (resetOpts p) with
      | (run2, some e, s2) => (run2, some (wrapErr "unable to reset check run: " e), s2)
      | (run2, none, s2) => (run2, none, s2)

/-- The update options `PRPlugin.finishCheckRun` fills in: a conclusion, a
completion stamp and the output block. -/
def finishOpts (p : PRPlugin) (conclusion summary text : String) (now : Nat) :
    UpdateCheckRunOptions :=
  { name := p.Name, status := none, conclusion := some conclusion,
    completedAt := some now,
    output := some { title := some p.Title, summary := some summary,
                     text := some text } }

/-- `PRPlugin.finishCheckRun`: record conclusion and output on the run
identified by `checkRunID`; on failure the (nil) update response together
with the wrapped error. -/
def finishCheckRun (p : PRPlugin) (client : GH) (owner repo : String)
    (checkRunID : Nat) (conclusion summary text : String) :
    Option CheckRun × Option GoError × GH :=
  match UpdateCheckRun client checkRunID
      (finishOpts p conclusion summary text client.now) with
  | (run, some e, s2) =>
    (run, some (wrapErr "unable to update check run with results: " e), s2)
  | (run, none, s2) => (run, none, s2)

/-- The create options `PRPlugin.duplicateCheckRun` fills in: everything
descriptive copied from the source run, rebound to the new head SHA. -/
def dupOpts (p : PRPlugin) (headSHA : String) (c : CheckRun) :
    CreateCheckRunOptions :=
  { name := p.Name, headSHA := headSHA, detailsURL := c.detailsURL,
    externalID := c.externalID, status := c.status, conclusion := c.conclusion,
    startedAt := c.startedAt, completedAt := c.completedAt, output := c.output }

/-- `PRPlugin.duplicateCheckRun`: create a copy of `checkRun` bound to the
new `headSHA`.  The Go body dereferences the source run pointer fields, so
the argument here is a plain run (a nil argument would panic at the call
site, which the callers model explicitly). -/
def duplicateCheckRun (p : PRPlugin) (client : GH) (owner repo headSHA : String)
    (checkRun : CheckRun) : Option CheckRun × Option GoError × GH :=
  match CreateCheckRun client (dupOpts p headSHA checkRun) with
  | (_, some e, s2) =>
    (none, some (wrapErr "unable to create duplicate check run: " e), s2)
  | (run, none, s2) => (run, none, s2)

/-- `PRPlugin.processAndSubmit`: run the verification, record the outcome
on the check run, and also surface a verification failure as an error
after the successful submission. -/
def processAndSubmit (p : PRPlugin) (env : ActionsEnv) (client : GH)
    (checkRun : Option CheckRun) : Option CheckRun × Option GoError × GH :=
  match processPR p env.event.pullRequest with
  | (conclusion, summary, text, procErr) =>
    match finishCheckRun p client env.owner env.repo (getID checkRun)
        conclusion summary text with
    | (run2, some e, s2) => (run2, some e, s2)
    | (run2, none, s2) =>
      match procErr with
      | some e => (run2, some (failedErr e.msg), s2)
      | none => (run2, none, s2)

/-! ## Event handlers and dispatcher -/

/-- Result of a handler: a returned Go error value, or a nil-pointer
dereference panic of the Go code (which a total embedding must surface
explicitly). -/
inductive HRes where
  | ok : Option GoError → HRes
  | nilDeref : HRes
deriving DecidableEq

/-- `PRPlugin.onOpen`: create the run for the head SHA, then process and
submit. -/
def onOpen (p : PRPlugin) (env : ActionsEnv) (client : GH) : HRes × GH :=
  match createCheckRun p client env.owner env.repo
      (getHeadSHA env.event.pullRequest) with
  | (_, some e, s1) => (.ok (some e), s1)
  | (checkRun, none, s1) =>
    match processAndSubmit p env s1 checkRun with
    | (_, err2, s2) => (.ok err2, s2)

/-- `PRPlugin.onReopen`: fetch-or-create the run for the head SHA; rerun
the verification when it is not finished; otherwise report an outer
failure when its recorded conclusion is failure (dereferencing the
conclusion and output-summary pointers). -/
def onReopen (p : PRPlugin) (env : ActionsEnv) (client : GH) : HRes × GH :=
  match getCheckRun p client env.owner env.repo
      (getHeadSHA env.event.pullRequest) with
  | (_, some e, s1) => (.ok (some e), s1)
  | (checkRun, none, s1) =>
    if !(Finished == getStatus checkRun) then
      match processAndSubmit p env s1 checkRun with
      | (_, err2, s2) => (.ok err2, s2)
    else
      match checkRun with
      | none => (.nilDeref, s1)
      | some c =>
        match c.conclusion with
        | none => (.nilDeref, s1)
        | some k =>
          if k == "failure" then
            match c.output with
            | none => (.nilDeref, s1)
            | some o =>
              match o.summary with
              | none => (.nilDeref, s1)
              | some m => (.ok (some (failedErr m)), s1)
          else (.ok none, s1)

/-- `PRPlugin.onEdit`: reset the run for the head SHA to in-progress,
then process and submit. -/
def onEdit (p : PRPlugin) (env : ActionsEnv) (client : GH) : HRes × GH :=
  match resetCheckRun p client env.owner env.repo
      (getHeadSHA env.event.pullRequest) with
  | (_, some e, s1) => (.ok (some e), s1)
  | (checkRun, none, s1) =>
    match processAndSubmit p env s1 checkRun with
    | (_, err2, s2) => (.ok err2, s2)

/-- `PRPlugin.onSync`: fetch-or-create the run for the previous head SHA;
rerun the verification when it is not finished, returning early on error;
then duplicate the record to the new head SHA and report an outer failure
when the duplicated record concludes failure (dereferencing the run,
conclusion and output-summary pointers). -/
def onSync (p : PRPlugin) (env : ActionsEnv) (client : GH) : HRes × GH :=
  match getCheckRun p client env.owner env.repo (getBefore env.event) with
  | (_, some e, s1) => (.ok (some e), s1)
  | (checkRun, none, s1) =>
    let step : Option CheckRun × Option GoError × GH :=
      if !(Finished == getStatus checkRun) then processAndSubmit p env s1 checkRun
      else (checkRun, none, s1)
    match step with
    | (_, some e, s2) => (.ok (some e), s2)
    | (checkRun2, none, s2) =>
      match checkRun2 with
      | none => (.nilDeref, s2)
      | some c =>
        match duplicateCheckRun p s2 env.owner env.repo (getAfter env.event) c with
        | (_, some e, s3) => (.ok (some e), s3)
        | (checkRun3, none, s3) =>
          match checkRun3 with
          | none => (.nilDeref, s3)
          | some d =>
            match d.conclusion with
            | none => (.nilDeref, s3)
            | some k =>
              if k == "failure" then
                match d.output with
                | none => (.nilDeref, s3)
                | some o =>
                  match o.summary with
                  | none => (.nilDeref, s3)
                  | some m => (.ok (some (failedErr m)), s3)
              else (.ok none, s3)

/-- `PRPlugin.entrypoint`: dispatch on the literal action string; any
other action is a no-op without error. -/
def entrypoint (p : PRPlugin) (env : ActionsEnv) (client : GH) : HRes × GH :=
  match getAction env.event with
  | "open" => onOpen p env client
  | "reopen" => onReopen p env client
  | "edit" => onEdit p env client
  | "synchronize" => onSync p env client
  | _ => (.ok none, client)

/-! ## The default verification function (`verify/type.go`) -/

/-- Modelled from the spec: the PR kind enumeration of the notes/common
package (`notes.PRType`), which is outside the provided sources.  The
recognized kinds are breaking, feature, fix, docs and other/infra, plus
the uncategorized sentinel. -/
inductive PRType where
  | uncategorized
  | breaking
  | feature
  | fix
  | docs
  | infra
deriving DecidableEq

/-- Modelled from the spec: the emoji of each recognized kind, as listed
by the acceptable title-prefix conventions. -/
def PRType.emoji : PRType → String
  | .breaking => "⚠"
  | .feature => "✨"
  | .fix => "🐛"
  | .docs => "📖"
  | .infra => "🌱"
  | .uncategorized => ""

/-- Modelled from the spec: the display label of each kind (its Stringer). -/
def PRType.label : PRType → String
  | .breaking => "breaking change"
  | .feature => "feature"
  | .fix => "bug fix"
  | .docs => "documentation"
  | .infra => "infrastructure"
  | .uncategorized => "uncategorized"

/-- Modelled from the spec: the acceptable title-prefix conventions, each
kind with its emoji form and its colon-code form. -/
def prTypeMarkers : List (PRType × String) :=
  [(.breaking, "⚠"), (.breaking, ":warning:"),
   (.feature, "✨"), (.feature, ":sparkles:"),
   (.fix, "🐛"), (.fix, ":bug:"),
   (.docs, "📖"), (.docs, ":book:"),
   (.infra, "🌱"), (.infra, ":seedling:")]

/-- Drop leading spaces of a cleaned title. -/
def dropLeadingSpaces (s : String) : String :=
  String.mk (s.data.dropWhile fun c => c == ' ')

/-- Modelled from the spec: the title classifier `notes.PRTypeFromTitle`
of the notes/common package, which is outside the provided sources.  A
title beginning with a recognized prefix yields that category and the
title cleaned of the prefix; otherwise the uncategorized sentinel. -/
def PRTypeFromTitle (title : String) : PRType × String :=
  let t := dropLeadingSpaces title
  match prTypeMarkers.find? (fun mk => mk.2.data.isPrefixOf t.data) with
  | some mk => (mk.1, dropLeadingSpaces (String.mk (t.data.drop mk.2.data.length)))
  | none => (.uncategorized, t)

/-- The `%#q` formatting verb applied to a string: the backquoted form
(valid for every argument used here, none of which contains a backquote). -/
def goBackQuote (s : String) : String := "`" ++ s ++ "`"

/-- The `Details()` text of `prTitleTypeError`: the full remediation
message listing the five acceptable title-prefix conventions and the
documentation reference link. -/
def prTitleTypeErrorDetails (title : String) : String :=
  "I saw a title of " ++ goBackQuote title
    ++ ", which doesn\x27t seem to have any of the acceptable prefixes.\n\n"
    ++ "You need to have one of these as the prefix of your PR title:\n\n"
    ++ "- Breaking change: ⚠ (" ++ goBackQuote ":warning:" ++ ")\n"
    ++ "- Non-breaking feature: ✨ (" ++ goBackQuote ":sparkles:" ++ ")\n"
    ++ "- Patch fix: 🐛 (" ++ goBackQuote ":bug:" ++ ")\n"
    ++ "- Docs: 📖 (" ++ goBackQuote ":book:" ++ ")\n"
    ++ "- Infra/Tests/Other: 🌱 (" ++ goBackQuote ":seedling:" ++ ")\n\n"
    ++ "More details can be found at [sigs.k8s.io/kubebuilder-release-tools/VERSIONING.md](https://sigs.k8s.io/kubebuilder-release-tools/VERSIONING.md)."

/-- The error value `prTitleTypeError{title}` of `verify/type.go`.  The Go
type implements `Error()` and `Details()`; it does NOT implement `Help()`,
so it does not satisfy the `ErrorWithHelp` capability interface and its
`help` component is `none`, while the remediation text sits in the
`details` component that nothing reads. -/
def prTitleTypeError (title : String) : GoError :=
  { msg := "no matching PR type indicator found in title",
    help := none,
    details := some (prTitleTypeErrorDetails title) }

/-- `verifyPRType`: classify the PR title; uncategorized fails with
`prTitleTypeError`, a recognized kind succeeds with a text naming the
emoji, the label and the cleaned title. -/
def verifyPRType (pr : Option PullRequest) : String × Option GoError :=
  match PRTypeFromTitle (getTitle pr) with
  | (prType, finalTitle) =>
    if prType = .uncategorized then
      ("", some (prTitleTypeError (getTitle pr)))
    else
      ("Found " ++ prType.emoji ++ " PR (" ++ prType.label
        ++ ") with final title:\n\n\t" ++ finalTitle ++ "\n", none)

/-! ## Auxiliary predicates and concrete scenario inputs -/

/-- Whether a stored run is bound to head SHA `sha`. -/
def shaOf (sha : String) (r : CheckRun) : Bool := r.headSHA == some sha

/-- A completed run is well formed when it carries a conclusion, and an
output summary as well when that conclusion is failure.  This is the
precondition under which the unguarded pointer dereferences of `onReopen`
and `onSync` are safe. -/
def completedOk (r : CheckRun) : Bool :=
  r.conclusion.isSome &&
    (!(r.conclusion == some "failure") || (r.output.bind (·.summary)).isSome)

/-- A plain error without capabilities. -/
def eBoom : GoError := { msg := "boom", help := none, details := none }

/-- An error satisfying the `ErrorWithHelp` capability. -/
def eHelped : GoError :=
  { msg := "boom", help := some "extended remediation", details := none }

/-- A plugin whose verification always succeeds. -/
def pPass : PRPlugin :=
  { ProcessPR := fun _ => ("all good", none), Name := "check", Title := "Check Title" }

/-- A plugin whose verification always fails with a helpless error and an
empty returned text. -/
def pFail : PRPlugin :=
  { ProcessPR := fun _ => ("", some eBoom), Name := "check", Title := "Check Title" }

/-- A plugin whose verification fails with a helpless error while also
returning a non-empty text. -/
def pLeft : PRPlugin :=
  { ProcessPR := fun _ => ("partial text", some eBoom), Name := "check", Title := "Check Title" }

/-- A plugin whose verification fails with a help-capable error. -/
def pHelped : PRPlugin :=
  { ProcessPR := fun _ => ("", some eHelped), Name := "check", Title := "Check Title" }

/-- A pull request whose title has no recognized type marker. -/
def prWidgets : PullRequest :=
  { title := some "Add support for widgets", headSHA := some "abc" }

/-- An event with the given action, the widgets pull request at head SHA
abc, and a synchronize transition from SHA old to SHA new. -/
def evOf (a : String) : PREvent :=
  { action := some a, pullRequest := some prWidgets,
    before := some "old", after := some "new" }

/-- The handler environment for `evOf`. -/
def envOf (a : String) : ActionsEnv :=
  { owner := "o", repo := "r", event := evOf a }

/-- A remote state with no check runs and all calls succeeding. -/
def ghEmpty : GH :=
  { runs := [], nextId := 7, now := 99,
    failList := false, failCreate := false, failUpdate := false }

/-- A run of the plugin check, in progress on SHA old. -/
def runOld : CheckRun :=
  { id := 1, name := some "check", headSHA := some "old", detailsURL := none,
    externalID := none, status := some "in-progress", conclusion := none,
    startedAt := some 1, completedAt := none, output := none }

/-- A remote state holding only `runOld`. -/
def ghOld : GH :=
  { runs := [runOld], nextId := 7, now := 99,
    failList := false, failCreate := false, failUpdate := false }

/-- An output block with the given summary. -/
def outS (m : String) : CheckRunOutput :=
  { title := some "Check Title", summary := some m, text := some "body" }

/-- A run of the plugin check, completed as a failure on SHA abc. -/
def runAbcFail : CheckRun :=
  { id := 1, name := some "check", headSHA := some "abc", detailsURL := none,
    externalID := none, status := some "completed", conclusion := some "failure",
    startedAt := some 1, completedAt := some 2, output := some (outS "badness") }

/-- A remote state holding only `runAbcFail`. -/
def ghAbcFail : GH :=
  { runs := [runAbcFail], nextId := 7, now := 99,
    failList := false, failCreate := false, failUpdate := false }

/-- A run of the plugin check, completed as a success on SHA abc. -/
def runAbcDone : CheckRun :=
  { id := 1, name := some "check", headSHA := some "abc", detailsURL := none,
    externalID := none, status := some "completed", conclusion := some "success",
    startedAt := some 1, completedAt := some 2, output := some (outS "Success") }

/-- A remote state holding only `runAbcDone`. -/
def ghAbcDone : GH :=
  { runs := [runAbcDone], nextId := 7, now := 99,
    failList := false, failCreate := false, failUpdate := false }

/-- A run of the plugin check, in progress on SHA abc. -/
def runAbc : CheckRun :=
  { id := 1, name := some "check", headSHA := some "abc", detailsURL := none,
    externalID := none, status := some "in-progress", conclusion := none,
    startedAt := some 1, completedAt := none, output := none }

/-- A remote state holding only `runAbc`. -/
def ghAbc : GH :=
  { runs := [runAbc], nextId := 7, now := 99,
    failList := false, failCreate := false, failUpdate := false }

/-- A second run of the plugin check on SHA abc, making the pair ambiguous. -/
def runAbcTwin : CheckRun :=
  { id := 2, name := some "check", headSHA := some "abc", detailsURL := none,
    externalID := none, status := some "in-progress", conclusion := none,
    startedAt := some 1, completedAt := none, output := none }

/-- A remote state holding two runs matching (check, abc). -/
def ghAbcTwins : GH :=
  { runs := [runAbc, runAbcTwin], nextId := 7, now := 99,
    failList := false, failCreate := false, failUpdate := false }

/-- A run of the plugin check, queued on SHA s. -/
def runQueued : CheckRun :=
  { id := 1, name := some "check", headSHA := some "s", detailsURL := none,
    externalID := none, status := some "queued", conclusion := none,
    startedAt := some 1, completedAt := none, output := none }

/-- A remote state holding `runQueued` with the update call failing. -/
def ghQueuedBad : GH :=
  { runs := [runQueued], nextId := 7, now := 99,
    failList := false, failCreate := false, failUpdate := true }

/-- A remote state holding `runQueued` with all calls succeeding. -/
def ghQueued : GH :=
  { runs := [runQueued], nextId := 7, now := 99,
    failList := false, failCreate := false, failUpdate := false }

/-- A run of the plugin check, completed as a failure on SHA old. -/
def runOldFail : CheckRun :=
  { id := 1, name := some "check", headSHA := some "old", detailsURL := none,
    externalID := none, status := some "completed", conclusion := some "failure",
    startedAt := some 1, completedAt := some 2, output := some (outS "badness") }

/-- A remote state holding only `runOldFail`. -/
def ghOldFail : GH :=
  { runs := [runOldFail], nextId := 7, now := 99,
    failList := false, failCreate := false, failUpdate := false }

/-- A malformed run: completed on SHA abc but with a nil conclusion. -/
def runAbcNoConc : CheckRun :=
  { id := 1, name := some "check", headSHA := some "abc", detailsURL := none,
    externalID := none, status := some "completed", conclusion := none,
    startedAt := some 1, completedAt := some 2, output := none }

/-- A remote state holding only the malformed `runAbcNoConc`. -/
def ghAbcNoConc : GH :=
  { runs := [runAbcNoConc], nextId := 7, now := 99,
    failList := false, failCreate := false, failUpdate := false }

/-- A malformed run: completed on SHA old but with a nil conclusion. -/
def runOldNoConc : CheckRun :=
  { id := 1, name := some "check", headSHA := some "old", detailsURL := none,
    externalID := none, status := some "completed", conclusion := none,
    startedAt := some 1, completedAt := some 2, output := none }

/-- A remote state holding only the malformed `runOldNoConc`. -/
def ghOldNoConc : GH :=
  { runs := [runOldNoConc], nextId := 7, now := 99,
    failList := false, failCreate := false, failUpdate := false }

/-- The record a successful `duplicateCheckRun` creates: everything
descriptive copied from the source run, rebound to the new head SHA. -/
def dupRun (p : PRPlugin) (s : GH) (sha : String) (c : CheckRun) : CheckRun :=
  createRunFromOpts s (dupOpts p sha c)

/-- The remote state after a successful `duplicateCheckRun`. -/
def dupState (p : PRPlugin) (s : GH) (sha : String) (c : CheckRun) : GH :=
  { s with runs := s.runs ++ [dupRun p s sha c], nextId := s.nextId + 1 }

/-! ## Stepping lemmas -/

/-- A successful list call returns the filtered runs. -/
theorem listCheckRuns_ok (s : GH) (ref checkName : String)
    (h : s.failList = false) :
    ListCheckRuns s ref checkName = (some (s.runs.filter (matchKey ref checkName)), none) := by
  simp [ListCheckRuns, h]

/-- A successful create appends exactly the new run. -/
theorem createCheckRun_ok (p : PRPlugin) (client : GH) (owner repo sha : String)
    (h : client.failCreate = false) :
    createCheckRun p client owner repo sha =
      (some (createRunFromOpts client (createOpts p sha)), none,
       { client with runs := client.runs ++ [createRunFromOpts client (createOpts p sha)],
                     nextId := client.nextId + 1 }) := by
  simp [createCheckRun, CreateCheckRun, h]

/-- A successful update patches the first run found and every stored run
with that identifier. -/
theorem updateCheckRun_ok (s : GH) (rid : Nat) (opts : UpdateCheckRunOptions)
    (c : CheckRun) (hfu : s.failUpdate = false)
    (hf : s.runs.find? (byId rid) = some c) :
    UpdateCheckRun s rid opts =
      (some (applyUpdate c opts), none,
       { s with runs := replaceRun s.runs rid opts }) := by
  simp [UpdateCheckRun, hfu, hf]

/-- Fetching when exactly one run matches returns it, touching nothing. -/
theorem getCheckRun_single (p : PRPlugin) (client : GH) (owner repo sha : String)
    (c : CheckRun) (hfl : client.failList = false)
    (hl : client.runs.filter (matchKey sha p.Name) = [c]) :
    getCheckRun p client owner repo sha = (some c, none, client) := by
  simp [getCheckRun, listCheckRuns_ok client sha p.Name hfl, hl]

/-- Fetching when no run matches delegates to create. -/
theorem getCheckRun_empty (p : PRPlugin) (client : GH) (owner repo sha : String)
    (hfl : client.failList = false)
    (hl : client.runs.filter (matchKey sha p.Name) = []) :
    getCheckRun p client owner repo sha = createCheckRun p client owner repo sha := by
  simp [getCheckRun, listCheckRuns_ok client sha p.Name hfl, hl]

/-- Fetching when several runs match is the ambiguity error, creating
nothing and touching nothing. -/
theorem getCheckRun_many (p : PRPlugin) (client : GH) (owner repo sha : String)
    (c d : CheckRun) (l : List CheckRun) (hfl : client.failList = false)
    (hl : client.runs.filter (matchKey sha p.Name) = c :: d :: l) :
    getCheckRun p client owner repo sha =
      (none, some (ambiguousCheckRunError p.Name owner repo sha), client) := by
  have h2 : (1 : Int) < ((l.length + 1 + 1 : Nat) : Int) := by
    push_cast; omega
  have h0 : ¬ (((l.length + 1 + 1 : Nat) : Int) = 0) := by omega
  have h1 : ¬ (((l.length + 1 + 1 : Nat) : Int) = 1) := by omega
  simp [getCheckRun, listCheckRuns_ok client sha p.Name hfl, hl, h0, h1, h2]
  split_ifs with hA hB
  · exfalso; omega
  · exfalso; omega
  · rfl

/-- Running and submitting when the verification fails and the finish
update succeeds: the run is finished with the failure conclusion and the
error is still surfaced. -/
theorem processAndSubmit_verifyFail (p : PRPlugin) (env : ActionsEnv) (client : GH)
    (checkRun : Option CheckRun) (t : String) (e : GoError) (c : CheckRun)
    (hpr : p.ProcessPR env.event.pullRequest = (t, some e))
    (hfu : client.failUpdate = false)
    (hf : client.runs.find? (byId (getID checkRun)) = some c) :
    processAndSubmit p env client checkRun =
      (some (applyUpdate c (finishOpts p "failure" e.msg (errText t e) client.now)),
       some (failedErr e.msg),
       { client with runs := replaceRun client.runs (getID checkRun) (finishOpts p "failure" e.msg (errText t e) client.now) }) := by
  simp [processAndSubmit, processPR, hpr, finishCheckRun,
        updateCheckRun_ok client (getID checkRun) _ c hfu hf]

/-- Running and submitting when the verification succeeds and the finish
update succeeds: the run is finished with the success conclusion and no
error is returned. -/
theorem processAndSubmit_verifyOk (p : PRPlugin) (env : ActionsEnv) (client : GH)
    (checkRun : Option CheckRun) (t : String) (c : CheckRun)
    (hpr : p.ProcessPR env.event.pullRequest = (t, none))
    (hfu : client.failUpdate = false)
    (hf : client.runs.find? (byId (getID checkRun)) = some c) :
    processAndSubmit p env client checkRun =
      (some (applyUpdate c (finishOpts p "success" "Success" t client.now)),
       none,
       { client with runs := replaceRun client.runs (getID checkRun) (finishOpts p "success" "Success" t client.now) }) := by
  simp [processAndSubmit, processPR, hpr, finishCheckRun,
        updateCheckRun_ok client (getID checkRun) _ c hfu hf]

/-! ## Claim C1 -/

/-- C1 (amended): for every verification function, `processPR` returns,
on `(text, nil)`, conclusion success, summary Success and that text; and
on `(text, err)` with a helpless non-nil error, conclusion failure,
summary the error message, and the returned text left untouched (the
claim as frozen said the text also equals the error message, which the
code contradicts). -/
theorem C1_processPR_outcome (p : PRPlugin) (pr : Option PullRequest) :
    (∀ t, p.ProcessPR pr = (t, none) →
      processPR p pr = ("success", "Success", t, none)) ∧
    (∀ t e, p.ProcessPR pr = (t, some e) → e.help = none →
      processPR p pr = ("failure", e.msg, t, some e)) := by
  constructor
  · intro t h
    simp [processPR, h]
  · intro t e h hh
    simp [processPR, h, errText, hh]

/-- Witness for C1: the success and helpless-failure outcomes at two
concrete plugins. -/
theorem C1_processPR_outcome_witness :
    processPR pPass none = ("success", "Success", "all good", none) ∧
    processPR pLeft none = ("failure", "boom", "partial text", some eBoom) :=
  ⟨(C1_processPR_outcome pPass none).1 "all good" rfl,
   (C1_processPR_outcome pLeft none).2 "partial text" eBoom rfl rfl⟩

/-- Counterexample for C1 as frozen: a verification function returning
`("partial text", err)` with a helpless error message boom yields a
check-run text equal to the returned text, not to the error message. -/
theorem C1_counterexample :
    processPR pLeft none = ("failure", "boom", "partial text", some eBoom) ∧
    ("partial text" : String) ≠ "boom" := by
  constructor
  · decide
  · decide

/-! ## Claim C6 -/

/-- C6: for every verification function failing with an error exposing
the extended-help capability with text H, `processPR` submits text H while
the summary stays the error message and the conclusion is failure. -/
theorem C6_help_replaces_text (p : PRPlugin) (pr : Option PullRequest)
    (t H : String) (e : GoError)
    (h : p.ProcessPR pr = (t, some e)) (hH : e.help = some H) :
    processPR p pr = ("failure", e.msg, H, some e) := by
  simp [processPR, h, errText, hH]

/-- Witness for C6 at a concrete help-capable error. -/
theorem C6_help_replaces_text_witness :
    processPR pHelped none = ("failure", "boom", "extended remediation", some eHelped) :=
  C6_help_replaces_text pHelped none "" "extended remediation" eHelped rfl rfl

/-! ## Claim C7 -/

/-- C7 (code bug evidence): on the uncategorized title
"Add support for widgets", `verifyPRType` fails with `prTitleTypeError`,
whose remediation text exists only behind a `Details` method: the error
does not satisfy the `ErrorWithHelp` capability (`help = none`), so
`processPR` submits the empty returned text instead of the remediation
text listing the five acceptable title-prefix conventions. -/
theorem C7_help_dead_code :
    (PRTypeFromTitle "Add support for widgets").1 = PRType.uncategorized ∧
    verifyPRType (some prWidgets) =
      ("", some (prTitleTypeError "Add support for widgets")) ∧
    (prTitleTypeError "Add support for widgets").help = none ∧
    (prTitleTypeError "Add support for widgets").details =
      some (prTitleTypeErrorDetails "Add support for widgets") ∧
    processPR { ProcessPR := verifyPRType, Name := "PR Type", Title := "PR Type" }
        (some prWidgets) =
      ("failure", "no matching PR type indicator found in title", "",
       some (prTitleTypeError "Add support for widgets")) ∧
    ("" : String) ≠ prTitleTypeErrorDetails "Add support for widgets" := by
  refine ⟨by decide, by decide, rfl, rfl, by decide, by decide⟩

/-! ## Claim C3 -/

/-- C3: the get-or-create policy of `getCheckRun`: zero matches delegates
to create and returns the newly created run; exactly one match returns it
creating nothing; two or more matches fail with the ambiguity error,
creating nothing and never silently picking one. -/
theorem C3_getOrCreate_policy (p : PRPlugin) (client : GH) (owner repo sha : String)
    (hfl : client.failList = false) :
    (client.runs.filter (matchKey sha p.Name) = [] → client.failCreate = false →
      getCheckRun p client owner repo sha =
        (some (createRunFromOpts client (createOpts p sha)), none,
         { client with runs := client.runs ++ [createRunFromOpts client (createOpts p sha)], nextId := client.nextId + 1 })) ∧
    (∀ c, client.runs.filter (matchKey sha p.Name) = [c] →
      getCheckRun p client owner repo sha = (some c, none, client)) ∧
    (∀ c d l, client.runs.filter (matchKey sha p.Name) = c :: d :: l →
      getCheckRun p client owner repo sha =
        (none, some (ambiguousCheckRunError p.Name owner repo sha), client)) := by
  refine ⟨fun hl hfc => ?_,
    fun c hl => getCheckRun_single p client owner repo sha c hfl hl,
    fun c d l hl => getCheckRun_many p client owner repo sha c d l hfl hl⟩
  rw [getCheckRun_empty p client owner repo sha hfl hl,
      createCheckRun_ok p client owner repo sha hfc]

/-- Witness for C3: the three policies at concrete states with zero, one
and two matching runs. -/
theorem C3_getOrCreate_policy_witness :
    getCheckRun pPass ghEmpty "o" "r" "abc" =
      (some (createRunFromOpts ghEmpty (createOpts pPass "abc")), none,
       { ghEmpty with runs := ghEmpty.runs ++ [createRunFromOpts ghEmpty (createOpts pPass "abc")], nextId := ghEmpty.nextId + 1 }) ∧
    getCheckRun pPass ghAbc "o" "r" "abc" = (some runAbc, none, ghAbc) ∧
    getCheckRun pPass ghAbcTwins "o" "r" "abc" =
      (none, some (ambiguousCheckRunError "check" "o" "r" "abc"), ghAbcTwins) :=
  ⟨(C3_getOrCreate_policy pPass ghEmpty "o" "r" "abc" rfl).1 rfl rfl,
   (C3_getOrCreate_policy pPass ghAbc "o" "r" "abc" rfl).2.1 runAbc (by decide),
   (C3_getOrCreate_policy pPass ghAbcTwins "o" "r" "abc" rfl).2.2 runAbc runAbcTwin [] (by decide)⟩

/-! ## Claim C9 -/

/-- C9 (amended): `resetCheckRun` first performs get-or-create; a run
already in progress is returned as-is with no update call; otherwise the
status is forced to in-progress via an update call, and on update failure
the wrapped error is returned together with the nil response of the
update call — the previously fetched run is shadowed by the assignment,
not returned (the claim as frozen said the fetched run is returned
instead of a nil run, which the code contradicts). -/
theorem C9_reset_policy (p : PRPlugin) (client : GH) (owner repo sha : String)
    (c : CheckRun) (hfl : client.failList = false)
    (hl : client.runs.filter (matchKey sha p.Name) = [c]) :
    (getStatus (some c) = "in-progress" →
      resetCheckRun p client owner repo sha = (some c, none, client)) ∧
    (getStatus (some c) ≠ "in-progress" → client.failUpdate = false →
      client.runs.find? (byId c.id) = some c →
      resetCheckRun p client owner repo sha =
        (some (applyUpdate c (resetOpts p)), none,
         { client with runs := replaceRun client.runs c.id (resetOpts p) })) ∧
    (getStatus (some c) ≠ "in-progress" → client.failUpdate = true →
      resetCheckRun p client owner repo sha =
        (none, some (wrapErr "unable to reset check run: " (remoteErr "update")), client)) := by
  have hg := getCheckRun_single p client owner repo sha c hfl hl
  refine ⟨fun hs => ?_, fun hs hfu hf => ?_, fun hs hfu => ?_⟩
  · simp [resetCheckRun, hg, hs, Started]
  · have hb : (Started == getStatus (some c)) = false := by
      simp only [Started, beq_eq_false_iff_ne]
      exact Ne.symm hs
    simp [resetCheckRun, hg, hb, getID,
          updateCheckRun_ok client c.id (resetOpts p) c hfu hf]
  · have hb : (Started == getStatus (some c)) = false := by
      simp only [Started, beq_eq_false_iff_ne]
      exact Ne.symm hs
    simp [resetCheckRun, hg, hb, UpdateCheckRun, hfu]

/-- Witness for C9: at a queued concrete run, the as-is return when in
progress is skipped and the update path runs; at a failing remote the nil
response is returned with the wrapped error. -/
theorem C9_reset_policy_witness :
    resetCheckRun pPass ghQueued "o" "r" "s" =
      (some (applyUpdate runQueued (resetOpts pPass)), none,
       { ghQueued with runs := replaceRun ghQueued.runs 1 (resetOpts pPass) }) ∧
    resetCheckRun pPass ghQueuedBad "o" "r" "s" =
      (none, some (wrapErr "unable to reset check run: " (remoteErr "update")), ghQueuedBad) :=
  ⟨((C9_reset_policy pPass ghQueued "o" "r" "s" runQueued rfl (by decide)).2.1
      (by decide) rfl (by decide)),
   ((C9_reset_policy pPass ghQueuedBad "o" "r" "s" runQueued rfl (by decide)).2.2
      (by decide) rfl)⟩

/-- Counterexample for C9 as frozen: on update failure the run returned
alongside the error is nil, not the previously fetched queued run. -/
theorem C9_counterexample :
    resetCheckRun pPass ghQueuedBad "o" "r" "s" =
      (none, some (wrapErr "unable to reset check run: " (remoteErr "update")), ghQueuedBad) ∧
    (none : Option CheckRun) ≠ some runQueued := by
  constructor
  · decide
  · decide

/-! ## Claim C4 -/

/-- C4: when the verification fails, `processAndSubmit` always returns a
non-nil error, and — when the finish update succeeds — the check run has
first been finished with conclusion failure (recorded in the submitted
state) before that error is surfaced. -/
theorem C4_record_then_surface (p : PRPlugin) (env : ActionsEnv) (client : GH)
    (checkRun : Option CheckRun) (t : String) (e : GoError)
    (hpr : p.ProcessPR env.event.pullRequest = (t, some e)) :
    ((processAndSubmit p env client checkRun).2.1).isSome = true ∧
    (∀ c, client.failUpdate = false →
      client.runs.find? (byId (getID checkRun)) = some c →
      processAndSubmit p env client checkRun =
        (some (applyUpdate c (finishOpts p "failure" e.msg (errText t e) client.now)),
         some (failedErr e.msg),
         { client with runs := replaceRun client.runs (getID checkRun) (finishOpts p "failure" e.msg (errText t e) client.now) }) ∧
      (applyUpdate c (finishOpts p "failure" e.msg (errText t e) client.now)).conclusion = some "failure" ∧
      (applyUpdate c (finishOpts p "failure" e.msg (errText t e) client.now)).status = some "completed" ∧
      applyUpdate c (finishOpts p "failure" e.msg (errText t e) client.now) ∈
        replaceRun client.runs (getID checkRun) (finishOpts p "failure" e.msg (errText t e) client.now)) := by
  constructor
  · cases hfu : client.failUpdate with
    | true => simp [processAndSubmit, processPR, hpr, finishCheckRun, UpdateCheckRun, hfu]
    | false =>
      rcases hff : client.runs.find? (byId (getID checkRun)) with _ | c
      · simp [processAndSubmit, processPR, hpr, finishCheckRun, UpdateCheckRun, hfu, hff]
      · simp [processAndSubmit_verifyFail p env client checkRun t e c hpr hfu hff]
  · intro c hfu hff
    refine ⟨processAndSubmit_verifyFail p env client checkRun t e c hpr hfu hff, rfl, rfl, ?_⟩
    have hc : c ∈ client.runs := List.mem_of_find?_eq_some hff
    have hid : byId (getID checkRun) c = true := List.find?_some hff
    have hm := List.mem_map_of_mem
      (fun q => if byId (getID checkRun) q then
          applyUpdate q (finishOpts p "failure" e.msg (errText t e) client.now) else q) hc
    simpa [replaceRun, hid] using hm

/-- Witness for C4 at a concrete failing verification over an in-progress
run. -/
theorem C4_record_then_surface_witness :
    ((processAndSubmit pFail (envOf "edit") ghAbc (some runAbc)).2.1).isSome = true ∧
    processAndSubmit pFail (envOf "edit") ghAbc (some runAbc) =
      (some (applyUpdate runAbc (finishOpts pFail "failure" "boom" "" 99)),
       some (failedErr "boom"),
       { ghAbc with runs := replaceRun ghAbc.runs 1 (finishOpts pFail "failure" "boom" "" 99) }) := by
  have h := C4_record_then_surface pFail (envOf "edit") ghAbc (some runAbc) "" eBoom rfl
  exact ⟨h.1, (h.2 runAbc rfl (by decide)).1⟩

/-! ## Claim C5 -/

/-- C5: the reopened transition: a not-completed run is processed and
submitted (verification run, then finished); a run completed with
conclusion failure makes the handler report the recorded failure without
invoking the verification function (any plugged function yields the same
result and state); a run completed with conclusion success is a no-op
returning nil. -/
theorem C5_reopen_policy (p : PRPlugin) (env : ActionsEnv) (client : GH)
    (c : CheckRun) (hfl : client.failList = false)
    (hl : client.runs.filter (matchKey (getHeadSHA env.event.pullRequest) p.Name) = [c]) :
    ((Finished == getStatus (some c)) = false →
      onReopen p env client =
        (.ok (processAndSubmit p env client (some c)).2.1,
         (processAndSubmit p env client (some c)).2.2)) ∧
    (∀ o m, c.status = some "completed" → c.conclusion = some "failure" →
      c.output = some o → o.summary = some m →
      ∀ f, onReopen { p with ProcessPR := f } env client =
        (.ok (some (failedErr m)), client)) ∧
    (c.status = some "completed" → c.conclusion = some "success" →
      onReopen p env client = (.ok none, client)) := by
  have hg := getCheckRun_single p client env.owner env.repo
    (getHeadSHA env.event.pullRequest) c hfl hl
  refine ⟨fun hnf => ?_, fun o m hst hc ho hs f => ?_, fun hst hc => ?_⟩
  · simp only [onReopen, hg, hnf, Bool.not_false, if_true]
  · have hg2 := getCheckRun_single { p with ProcessPR := f } client env.owner env.repo
      (getHeadSHA env.event.pullRequest) c hfl (by simpa using hl)
    simp [onReopen, hg2, getStatus, hst, Finished, hc, ho, hs]
  · simp [onReopen, hg, getStatus, hst, Finished, hc]

/-- Witness for C5: the three reopened behaviours at concrete states: an
in-progress run is processed and submitted; a completed failure reports
the recorded summary even under a verification function that would
succeed; a completed success is a no-op. -/
theorem C5_reopen_policy_witness :
    onReopen pPass (envOf "reopen") ghAbc =
      (.ok (processAndSubmit pPass (envOf "reopen") ghAbc (some runAbc)).2.1,
       (processAndSubmit pPass (envOf "reopen") ghAbc (some runAbc)).2.2) ∧
    onReopen { ProcessPR := fun _ => ("other", none), Name := "check", Title := "Check Title" }
        (envOf "reopen") ghAbcFail = (.ok (some (failedErr "badness")), ghAbcFail) ∧
    onReopen pPass (envOf "reopen") ghAbcDone = (.ok none, ghAbcDone) :=
  ⟨(C5_reopen_policy pPass (envOf "reopen") ghAbc runAbc rfl (by decide)).1 (by decide),
   (C5_reopen_policy pFail (envOf "reopen") ghAbcFail runAbcFail rfl (by decide)).2.1
     (outS "badness") "badness" rfl rfl rfl rfl (fun _ => ("other", none)),
   (C5_reopen_policy pPass (envOf "reopen") ghAbcDone runAbcDone rfl (by decide)).2.2 rfl rfl⟩

/-! ## Claim C8 -/

/-- C8 (amended): the dispatcher selects the open transition for the
literal action string "open" (not "opened"), in which case it creates a
run for the head SHA and then processes and submits against it; and every
action outside the four literals "open", "reopen", "edit", "synchronize"
is a no-op returning no error (the claim as frozen used the action names
"opened", "reopened", "edited", "synchronized", which the code does not
match; "opened" in particular lands in the no-op arm). -/
theorem C8_dispatch (p : PRPlugin) (env : ActionsEnv) (client : GH) :
    (getAction env.event = "open" → entrypoint p env client = onOpen p env client) ∧
    (getAction env.event = "open" → client.failCreate = false →
      entrypoint p env client =
        (.ok (processAndSubmit p env
            { client with runs := client.runs ++ [createRunFromOpts client (createOpts p (getHeadSHA env.event.pullRequest))], nextId := client.nextId + 1 }
            (some (createRunFromOpts client (createOpts p (getHeadSHA env.event.pullRequest))))).2.1,
         (processAndSubmit p env
            { client with runs := client.runs ++ [createRunFromOpts client (createOpts p (getHeadSHA env.event.pullRequest))], nextId := client.nextId + 1 }
            (some (createRunFromOpts client (createOpts p (getHeadSHA env.event.pullRequest))))).2.2)) ∧
    (getAction env.event ∉ (["open", "reopen", "edit", "synchronize"] : List String) →
      entrypoint p env client = (.ok none, client)) := by
  refine ⟨fun h => by simp [entrypoint, h], fun h hfc => ?_, fun h => ?_⟩
  · have hcr := createCheckRun_ok p client env.owner env.repo
      (getHeadSHA env.event.pullRequest) hfc
    simp only [entrypoint, h, onOpen, hcr]
  · unfold entrypoint
    split
    all_goals try rfl
    all_goals rename_i heq
    all_goals exact absurd (by simp [heq]) h

/-- Witness for C8: the action "open" runs the open transition at a
concrete empty state, and the unrecognized action "closed" is a no-op. -/
theorem C8_dispatch_witness :
    entrypoint pPass (envOf "open") ghEmpty =
      (.ok (processAndSubmit pPass (envOf "open")
          { ghEmpty with runs := ghEmpty.runs ++ [createRunFromOpts ghEmpty (createOpts pPass "abc")], nextId := ghEmpty.nextId + 1 }
          (some (createRunFromOpts ghEmpty (createOpts pPass "abc")))).2.1,
       (processAndSubmit pPass (envOf "open")
          { ghEmpty with runs := ghEmpty.runs ++ [createRunFromOpts ghEmpty (createOpts pPass "abc")], nextId := ghEmpty.nextId + 1 }
          (some (createRunFromOpts ghEmpty (createOpts pPass "abc")))).2.2) ∧
    entrypoint pPass (envOf "closed") ghEmpty = (.ok none, ghEmpty) :=
  ⟨(C8_dispatch pPass (envOf "open") ghEmpty).2.1 rfl rfl,
   (C8_dispatch pPass (envOf "closed") ghEmpty).2.2 (by decide)⟩

/-- Counterexample for C8 as frozen: an event whose action is the literal
"opened" is dispatched to the no-op arm: no error, the state untouched,
and no check run created for the head SHA. -/
theorem C8_counterexample :
    entrypoint pPass (envOf "opened") ghEmpty = (.ok none, ghEmpty) ∧
    ((entrypoint pPass (envOf "opened") ghEmpty).2.runs.filter (shaOf "abc")).length = 0 := by
  constructor
  · decide
  · decide

/-! ## Claim C2 -/

/-- Patching runs in place never changes which head SHA they are bound
to, so per-SHA counts are preserved. -/
theorem replaceRun_filter_length (runs : List CheckRun) (rid : Nat)
    (opts : UpdateCheckRunOptions) (x : String) :
    ((replaceRun runs rid opts).filter (shaOf x)).length
      = (runs.filter (shaOf x)).length := by
  induction runs with
  | nil => rfl
  | cons a l ih =>
    have hsha : shaOf x (if byId rid a then applyUpdate a opts else a) = shaOf x a := by
      by_cases hb : byId rid a
      · simp [hb, shaOf, applyUpdate]
      · simp [hb]
    simp only [replaceRun, List.map_cons, List.filter_cons, hsha] at *
    cases hx : shaOf x a
    · simp only [hx, Bool.false_eq_true, if_false]
      exact ih
    · simp only [hx, if_true, List.length_cons]
      omega

/-- A successful duplicate creates exactly the copied run. -/
theorem duplicateCheckRun_ok (p : PRPlugin) (s : GH) (owner repo sha : String)
    (c : CheckRun) (hfc : s.failCreate = false) :
    duplicateCheckRun p s owner repo sha c =
      (some (dupRun p s sha c), none, dupState p s sha c) := by
  simp [duplicateCheckRun, CreateCheckRun, hfc, dupRun, dupState]

/-- The duplicated run keeps the conclusion of its source. -/
theorem dupRun_conclusion (p : PRPlugin) (s : GH) (sha : String) (c : CheckRun) :
    (dupRun p s sha c).conclusion = c.conclusion := rfl

/-- The duplicated run keeps the output of its source. -/
theorem dupRun_output (p : PRPlugin) (s : GH) (sha : String) (c : CheckRun) :
    (dupRun p s sha c).output = c.output := rfl

/-- The duplicated run carries the plugin check name. -/
theorem dupRun_name (p : PRPlugin) (s : GH) (sha : String) (c : CheckRun) :
    (dupRun p s sha c).name = some p.Name := rfl

/-- The duplicated run is bound to the new head SHA. -/
theorem dupRun_headSHA (p : PRPlugin) (s : GH) (sha : String) (c : CheckRun) :
    (dupRun p s sha c).headSHA = some sha := rfl

/-- Duplicating adds exactly one run bound to the new head SHA. -/
theorem dupState_filter_length (p : PRPlugin) (s : GH) (sha : String) (c : CheckRun) :
    ((dupState p s sha c).runs.filter (shaOf sha)).length
      = (s.runs.filter (shaOf sha)).length + 1 := by
  simp [dupState, List.filter_append, shaOf, dupRun_headSHA]

/-- C2 (amended): the synchronized transition fetches the run for the
previous head SHA.  A not-completed run is processed and submitted first,
and an error of that step — a verification failure included — is returned
without any duplication (the claim as frozen said the record is always
duplicated afterwards, which the code contradicts); when the step
succeeds, and when the run was already completed, the record is
duplicated to the new head SHA: exactly one additional run bound to the
new head SHA appears, with name and output copied from the old-SHA run,
the old-SHA run itself left in place, and an error is returned exactly
when the duplicated record concludes failure. -/
theorem C2_sync_policy (p : PRPlugin) (env : ActionsEnv) (client : GH) (c : CheckRun)
    (hfl : client.failList = false)
    (hl : client.runs.filter (matchKey (getBefore env.event) p.Name) = [c]) :
    ((Finished == getStatus (some c)) = false →
      ∀ t e, p.ProcessPR env.event.pullRequest = (t, some e) →
      client.failUpdate = false → client.runs.find? (byId c.id) = some c →
      onSync p env client =
        (.ok (some (failedErr e.msg)),
         { client with runs := replaceRun client.runs c.id (finishOpts p "failure" e.msg (errText t e) client.now) }) ∧
      ((replaceRun client.runs c.id (finishOpts p "failure" e.msg (errText t e) client.now)).filter (shaOf (getAfter env.event))).length
        = (client.runs.filter (shaOf (getAfter env.event))).length) ∧
    ((Finished == getStatus (some c)) = false →
      ∀ t, p.ProcessPR env.event.pullRequest = (t, none) →
      client.failUpdate = false → client.failCreate = false →
      client.runs.find? (byId c.id) = some c →
      onSync p env client =
        (.ok none,
         dupState p { client with runs := replaceRun client.runs c.id (finishOpts p "success" "Success" t client.now) } (getAfter env.event) (applyUpdate c (finishOpts p "success" "Success" t client.now))) ∧
      ((dupState p { client with runs := replaceRun client.runs c.id (finishOpts p "success" "Success" t client.now) } (getAfter env.event) (applyUpdate c (finishOpts p "success" "Success" t client.now))).runs.filter (shaOf (getAfter env.event))).length
        = (client.runs.filter (shaOf (getAfter env.event))).length + 1) ∧
    (c.status = some "completed" → client.failCreate = false →
      (∀ o m, c.conclusion = some "failure" → c.output = some o → o.summary = some m →
        onSync p env client = (.ok (some (failedErr m)), dupState p client (getAfter env.event) c)) ∧
      (∀ k, c.conclusion = some k → (k == "failure") = false →
        onSync p env client = (.ok none, dupState p client (getAfter env.event) c)) ∧
      (dupRun p client (getAfter env.event) c).name = some p.Name ∧
      (dupRun p client (getAfter env.event) c).output = c.output ∧
      (dupRun p client (getAfter env.event) c).headSHA = some (getAfter env.event) ∧
      (dupState p client (getAfter env.event) c).runs = client.runs ++ [dupRun p client (getAfter env.event) c] ∧
      ((dupState p client (getAfter env.event) c).runs.filter (shaOf (getAfter env.event))).length
        = (client.runs.filter (shaOf (getAfter env.event))).length + 1) := by
  have hg := getCheckRun_single p client env.owner env.repo (getBefore env.event) c hfl hl
  refine ⟨fun hnf t e hpr hfu hf => ?_, fun hnf t hpr hfu hfc hf => ?_, fun hst hfc => ?_⟩
  · have hps := processAndSubmit_verifyFail p env client (some c) t e c hpr hfu
      (by simpa [getID] using hf)
    refine ⟨?_, replaceRun_filter_length client.runs c.id _ (getAfter env.event)⟩
    simp only [onSync, hg, hnf, Bool.not_false, if_true, hps, getID,
      Option.map_some', Option.getD_some]
  · have hps := processAndSubmit_verifyOk p env client (some c) t c hpr hfu
      (by simpa [getID] using hf)
    have hdup := duplicateCheckRun_ok p
      { client with runs := replaceRun client.runs (getID (some c)) (finishOpts p "success" "Success" t client.now) }
      env.owner env.repo (getAfter env.event)
      (applyUpdate c (finishOpts p "success" "Success" t client.now)) hfc
    constructor
    · simp only [onSync, hg, hnf, Bool.not_false, if_true, hps, hdup]
      simp [dupRun_conclusion, applyUpdate, finishOpts, getID]
    · rw [dupState_filter_length, replaceRun_filter_length]
  · have hfin : (Finished == getStatus (some c)) = true := by
      simp [Finished, getStatus, hst]
    have hdup := duplicateCheckRun_ok p client env.owner env.repo (getAfter env.event) c hfc
    refine ⟨fun o m hc ho hs => ?_, fun k hc hk => ?_, dupRun_name p client _ c,
      dupRun_output p client _ c, dupRun_headSHA p client _ c, rfl,
      dupState_filter_length p client _ c⟩
    · simp only [onSync, hg, hfin, Bool.not_true, if_false]
      simp [hdup, dupRun_conclusion, hc, dupRun_output, ho, hs]
    · simp only [onSync, hg, hfin, Bool.not_true, if_false]
      simp [hdup, dupRun_conclusion, hc, hk]

/-- Witness for C2: the three synchronized behaviours at concrete states:
a failing verification on a not-completed old run returns the failure
with no duplicate; a succeeding one finishes and duplicates; a completed
failing old run is duplicated and its failure reported. -/
theorem C2_sync_policy_witness :
    onSync pFail (envOf "synchronize") ghOld =
      (.ok (some (failedErr "boom")),
       { ghOld with runs := replaceRun ghOld.runs 1 (finishOpts pFail "failure" "boom" "" 99) }) ∧
    onSync pPass (envOf "synchronize") ghOld =
      (.ok none,
       dupState pPass { ghOld with runs := replaceRun ghOld.runs 1 (finishOpts pPass "success" "Success" "all good" 99) } "new" (applyUpdate runOld (finishOpts pPass "success" "Success" "all good" 99))) ∧
    onSync pPass (envOf "synchronize") ghOldFail =
      (.ok (some (failedErr "badness")), dupState pPass ghOldFail "new" runOldFail) := by
  refine ⟨((C2_sync_policy pFail (envOf "synchronize") ghOld runOld rfl (by decide)).1
      (by decide) "" eBoom rfl rfl (by decide)).1,
    ((C2_sync_policy pPass (envOf "synchronize") ghOld runOld rfl (by decide)).2.1
      (by decide) "all good" rfl rfl rfl (by decide)).1,
    (((C2_sync_policy pPass (envOf "synchronize") ghOldFail runOldFail rfl (by decide)).2.2
      rfl rfl).1 (outS "badness") "badness" rfl rfl rfl)⟩

/-- Counterexample for C2 as frozen: on a synchronized event whose
not-completed old-SHA run fails verification, the handler returns the
failure without duplicating: zero (not exactly one) additional check runs
bound to the new head SHA exist after processing. -/
theorem C2_counterexample :
    (onSync pFail (envOf "synchronize") ghOld).1 = .ok (some (failedErr "boom")) ∧
    (((onSync pFail (envOf "synchronize") ghOld).2.runs.filter (shaOf "new")).length = 0) := by
  constructor
  · decide
  · decide

/-! ## Claim C10 -/

/-- A fetch-or-create that returns no error returns a run that either was
already stored or is freshly created in progress. -/
theorem getCheckRun_shape (p : PRPlugin) (client : GH) (owner repo sha : String) :
    ((getCheckRun p client owner repo sha).2.1).isSome = true ∨
    ∃ c, (getCheckRun p client owner repo sha).1 = some c ∧
      (c ∈ client.runs ∨ c.status = some "in-progress") := by
  cases hb : client.failList with
  | true => left; simp [getCheckRun, ListCheckRuns, hb]
  | false =>
    rcases hL : client.runs.filter (matchKey sha p.Name) with _ | ⟨c0, L⟩
    · rw [getCheckRun_empty p client owner repo sha hb hL]
      cases hc : client.failCreate with
      | true => left; simp [createCheckRun, CreateCheckRun, hc]
      | false =>
        right
        rw [createCheckRun_ok p client owner repo sha hc]
        exact ⟨_, rfl, Or.inr rfl⟩
    · rcases L with _ | ⟨c1, L'⟩
      · right
        rw [getCheckRun_single p client owner repo sha c0 hb hL]
        refine ⟨c0, rfl, Or.inl ?_⟩
        have hm : c0 ∈ client.runs.filter (matchKey sha p.Name) := by simp [hL]
        exact List.mem_of_mem_filter hm
      · left
        rw [getCheckRun_many p client owner repo sha c0 c1 L' hb hL]
        rfl

/-- A process-and-submit that returns no error returns the finished run,
which carries a conclusion and an output with a summary. -/
theorem processAndSubmit_shape (p : PRPlugin) (env : ActionsEnv) (client : GH)
    (checkRun : Option CheckRun)
    (h : ((processAndSubmit p env client checkRun).2.1) = none) :
    ∃ d, (processAndSubmit p env client checkRun).1 = some d ∧
      d.conclusion.isSome = true ∧
      ∃ o, d.output = some o ∧ o.summary.isSome = true := by
  rcases hq : processPR p env.event.pullRequest with ⟨con, summ, txt, pe⟩
  cases hfu : client.failUpdate with
  | true =>
    exfalso
    simp [processAndSubmit, hq, finishCheckRun, UpdateCheckRun, hfu] at h
  | false =>
    rcases hff : client.runs.find? (byId (getID checkRun)) with _ | c
    · exfalso
      simp [processAndSubmit, hq, finishCheckRun, UpdateCheckRun, hfu, hff] at h
    · have hup := updateCheckRun_ok client (getID checkRun)
        (finishOpts p con summ txt client.now) c hfu hff
      cases pe with
      | some e =>
        exfalso
        simp [processAndSubmit, hq, finishCheckRun, hup] at h
      | none =>
        exact ⟨applyUpdate c (finishOpts p con summ txt client.now),
          by simp [processAndSubmit, hq, finishCheckRun, hup], rfl,
          ⟨{ title := some p.Title, summary := some summ, text := some txt }, rfl, rfl⟩⟩

/-- Under well-formed completed runs, the reopened handler never hits a
nil dereference. -/
theorem onReopen_safe (p : PRPlugin) (env : ActionsEnv) (client : GH)
    (hwf : ∀ r ∈ client.runs, r.status = some "completed" → completedOk r = true) :
    (onReopen p env client).1 ≠ HRes.nilDeref := by
  have hshape := getCheckRun_shape p client env.owner env.repo
    (getHeadSHA env.event.pullRequest)
  rcases hg : getCheckRun p client env.owner env.repo
      (getHeadSHA env.event.pullRequest) with ⟨run, err, s1⟩
  rw [hg] at hshape
  unfold onReopen
  rw [hg]
  rcases err with _ | e
  · rcases hshape with hs | ⟨c, hrun, hmem⟩
    · simp at hs
    · simp only at hrun
      subst hrun
      cases hnf : (Finished == getStatus (some c)) with
      | false =>
        rcases hps : processAndSubmit p env s1 (some c) with ⟨r2, e2, s2⟩
        simp [hnf, hps]
      | true =>
        have hge : getStatus (some c) = "completed" := by
          have : Finished = getStatus (some c) := by
            simpa using hnf
          simpa [Finished] using this.symm
        have hst : c.status = some "completed" := by
          rcases hcs : c.status with _ | st
          · simp [getStatus, hcs] at hge
          · simp [getStatus, hcs] at hge
            rw [hge]
        have hcm : c ∈ client.runs := by
          rcases hmem with h | h
          · exact h
          · rw [hst] at h
            simp at h
        have hok := hwf c hcm hst
        rcases hcc : c.conclusion with _ | k
        · simp [completedOk, hcc] at hok
        · simp only [hnf, Bool.not_true, if_false, hcc]
          by_cases hkf : k = "failure"
          · subst hkf
            simp only [completedOk, hcc] at hok
            rcases hco : c.output with _ | o
            · simp [hco] at hok
            · rcases hcs2 : o.summary with _ | m
              · simp [hco, hcs2] at hok
              · simp [hco, hcs2]
          · have : (k == "failure") = false := by
              simpa using hkf
            simp [this]
  · simp

/-- Under well-formed completed runs, the synchronized handler never hits
a nil dereference. -/
theorem onSync_safe (p : PRPlugin) (env : ActionsEnv) (client : GH)
    (hwf : ∀ r ∈ client.runs, r.status = some "completed" → completedOk r = true) :
    (onSync p env client).1 ≠ HRes.nilDeref := by
  have hshape := getCheckRun_shape p client env.owner env.repo (getBefore env.event)
  rcases hg : getCheckRun p client env.owner env.repo
      (getBefore env.event) with ⟨run, err, s1⟩
  rw [hg] at hshape
  unfold onSync
  rw [hg]
  rcases err with _ | e
  · rcases hshape with hs | ⟨c, hrun, hmem⟩
    · simp at hs
    · simp only at hrun
      subst hrun
      cases hnf : (Finished == getStatus (some c)) with
      | false =>
        rcases hps : processAndSubmit p env s1 (some c) with ⟨r2, e2, s2⟩
        rcases e2 with _ | e2v
        · have hsh := processAndSubmit_shape p env s1 (some c) (by rw [hps])
          rw [hps] at hsh
          rcases hsh with ⟨d, hd, hdc, o, ho, hos⟩
          simp only at hd
          subst hd
          cases hc3 : s2.failCreate with
          | true => simp [hnf, hps, duplicateCheckRun, CreateCheckRun, hc3]
          | false =>
            have hdup := duplicateCheckRun_ok p s2 env.owner env.repo
              (getAfter env.event) d hc3
            rcases hdk : d.conclusion with _ | k
            · simp [hdk] at hdc
            · rcases hosm : o.summary with _ | m
              · simp [hosm] at hos
              · simp only [hnf, Bool.not_false, if_true, hps, hdup, dupRun_conclusion,
                  hdk, dupRun_output, ho, hosm]
                split <;> simp
        · simp [hnf, hps]
      | true =>
        have hge : getStatus (some c) = "completed" := by
          have : Finished = getStatus (some c) := by
            simpa using hnf
          simpa [Finished] using this.symm
        have hst : c.status = some "completed" := by
          rcases hcs : c.status with _ | st
          · simp [getStatus, hcs] at hge
          · simp [getStatus, hcs] at hge
            rw [hge]
        have hcm : c ∈ client.runs := by
          rcases hmem with h | h
          · exact h
          · rw [hst] at h
            simp at h
        have hok := hwf c hcm hst
        cases hc3 : s1.failCreate with
        | true => simp [hnf, duplicateCheckRun, CreateCheckRun, hc3]
        | false =>
          have hdup := duplicateCheckRun_ok p s1 env.owner env.repo
            (getAfter env.event) c hc3
          rcases hcc : c.conclusion with _ | k
          · simp [completedOk, hcc] at hok
          · by_cases hkf : k = "failure"
            · subst hkf
              simp only [completedOk, hcc] at hok
              rcases hco : c.output with _ | o
              · simp [hco] at hok
              · rcases hcs2 : o.summary with _ | m
                · simp [hco, hcs2] at hok
                · simp [hnf, hdup, dupRun_conclusion, hcc, dupRun_output, hco, hcs2]
            · have hkb : (k == "failure") = false := by
                simpa using hkf
              simp [hnf, hdup, dupRun_conclusion, hcc, hkb]
  · simp

/-- C10: the unguarded conclusion and output-summary dereferences of the
reopened and synchronized handlers are safe exactly under the precondition
that every completed stored run carries a conclusion, and an output
summary when that conclusion is failure: under it neither handler can
reach the nil-dereference outcome, and without it a completed run with a
nil conclusion drives both handlers into it. -/
theorem C10_unguarded_derefs :
    (∀ (p : PRPlugin) (env : ActionsEnv) (client : GH),
      (∀ r ∈ client.runs, r.status = some "completed" → completedOk r = true) →
      (onReopen p env client).1 ≠ HRes.nilDeref ∧
      (onSync p env client).1 ≠ HRes.nilDeref) ∧
    (onReopen pPass (envOf "reopen") ghAbcNoConc).1 = HRes.nilDeref ∧
    (onSync pPass (envOf "synchronize") ghOldNoConc).1 = HRes.nilDeref := by
  refine ⟨fun p env client hwf =>
    ⟨onReopen_safe p env client hwf, onSync_safe p env client hwf⟩, ?_, ?_⟩
  · decide
  · decide

/-- Witness for C10: at concrete well-formed states both handlers avoid
the nil-dereference outcome. -/
theorem C10_unguarded_derefs_witness :
    (onReopen pPass (envOf "reopen") ghAbcFail).1 ≠ HRes.nilDeref ∧
    (onSync pPass (envOf "synchronize") ghOld).1 ≠ HRes.nilDeref :=
  ⟨(C10_unguarded_derefs.1 pPass (envOf "reopen") ghAbcFail (by decide)).1,
   (C10_unguarded_derefs.1 pPass (envOf "synchronize") ghOld (by decide)).2⟩

end Verify



